import Mathlib

/-!
Verification of the soft-deletion helpers for Django and SQLAlchemy
(src/django.py and src/sqlalchemy.py).

Rows of a soft-deletable model are embedded as a payload (all columns other
than the deletion timestamp) together with the nullable `deleted_at` column.
Tables are lists of rows; query sets are lists produced by filtering.
Database timestamps are natural numbers; the database clock value at the
moment a bulk UPDATE executes is passed explicitly as a parameter `dbNow`
(the source uses the SQL-side functions `models.functions.Now()` and
`func.clock_timestamp()`, which evaluate on the database server).
-/

namespace SoftDel

/-- Database timestamps (values of the DateTime columns). -/
abbrev Timestamp := Nat

/-- A row of a soft-deletable model: the payload columns together with the
nullable deletion-timestamp column
(`deleted_at = models.DateTimeField(null=True, default=None)` in Django,
`deleted_at = Column(DateTime(timezone=True), nullable=True)` in SQLAlchemy). -/
structure SDRow (α : Type) where
  payload : α
  deleted_at : Option Timestamp
deriving DecidableEq, Repr

/-- A freshly created row: the `deleted_at` column defaults to null
(`default=None` in Django; no default and nullable in SQLAlchemy). -/
def newRow {α : Type} (x : α) : SDRow α := ⟨x, none⟩

namespace Django

/-- SoftDeletionManager.get_queryset:
`super().get_queryset().filter(deleted_at=None)` — keeps exactly the rows
whose deletion timestamp is null. -/
def get_queryset {α : Type} (table : List (SDRow α)) : List (SDRow α) :=
  table.filter (fun r => r.deleted_at.isNone)

/-- The plain `models.Manager.get_queryset`, as bound to `all_objects`:
returns every row of the table, no filter. -/
def all_objects {α : Type} (table : List (SDRow α)) : List (SDRow α) :=
  table

/-- SoftDeletionManager.soft_delete:
`super().get_queryset().filter(*args, **kwargs).update(deleted_at=Now())`.
It filters the unfiltered base queryset with the predicate, bulk-updates the
deletion timestamp of every matching row to the database clock value, and
returns the number of affected rows (the return value of `update`). -/
def soft_delete {α : Type} (p : SDRow α → Bool) (dbNow : Timestamp)
    (table : List (SDRow α)) : List (SDRow α) × Nat :=
  (table.map (fun r => if p r then ⟨r.payload, some dbNow⟩ else r),
   (table.filter p).length)

end Django

namespace SA

/-- A SQLAlchemy Query over a soft-deletable table: the underlying rows of
the table together with the accumulated WHERE condition. -/
structure Query (α : Type) where
  table : List (SDRow α)
  cond : SDRow α → Bool

/-- Query.filter: conjoins a further predicate onto the WHERE condition. -/
def Query.filter {α : Type} (q : Query α) (p : SDRow α → Bool) : Query α :=
  ⟨q.table, fun r => q.cond r && p r⟩

/-- The rows a query returns when iterated: the table restricted to the
accumulated WHERE condition. -/
def Query.rows {α : Type} (q : Query α) : List (SDRow α) :=
  q.table.filter q.cond

/-- SoftDeletionQuery.soft_delete:
`self.filter(*args, **kwargs).update(values=(deleted_at = clock_timestamp()), synchronize_session=False)`.
The UPDATE applies to the rows selected by the query condition conjoined
with the predicate; it sets their deletion timestamp to the database clock
value and returns the affected row count. -/
def Query.soft_delete {α : Type} (q : Query α) (p : SDRow α → Bool)
    (dbNow : Timestamp) : List (SDRow α) × Nat :=
  (q.table.map (fun r => if (q.filter p).cond r then ⟨r.payload, some dbNow⟩ else r),
   (q.table.filter (q.filter p).cond).length)

/-- A query built by a plain (non-overridden) Session: no condition. -/
def plainQuery {α : Type} (table : List (SDRow α)) : Query α :=
  ⟨table, fun _ => true⟩

/-- SoftDeletionSession.query: builds a SoftDeletionQuery and, when the
entity has a `deleted_at` attribute, conjoins `entity.deleted_at == None`
onto it. -/
def sessionQuery {α : Type} (hasDeletedAt : Bool) (table : List (SDRow α)) :
    Query α :=
  if hasDeletedAt then
    ⟨table, fun r => true && r.deleted_at.isNone⟩
  else
    plainQuery table

end SA

namespace Django

/-- A field of a Django model, as inspected by check_model_object_manager:
either a ForeignKey (recording whether `field.remote_field.model` is a
subclass of SoftDeletionModel) or any other kind of field. -/
inductive DjField where
  | foreignKey (remoteSoftDeletable : Bool)
  | otherField
deriving DecidableEq, Repr

/-- The class of the manager instance bound to `Model.objects`; the checker
compares `type(model.objects)` with `models.Manager` by exact class
equality, so only the first constructor triggers it. -/
inductive ManagerClass where
  | plainManager
  | softDeletionManager
  | deletedFilterManager (queryParam : Option String)
deriving DecidableEq, Repr

/-- A registered Django model as the checker sees it: its class name, the
`issubclass(model, models.Model)` flag, its `_meta.fields`, and the class of
its default manager `model.objects`. -/
structure DjModel where
  name : String
  isModelSubclass : Bool
  fields : List DjField
  objectsManager : ManagerClass
deriving DecidableEq, Repr

/-- An installed app config: its dotted name and its registered models. -/
structure AppConfig where
  name : String
  models : List DjModel
deriving DecidableEq, Repr

/-- Python str.startswith, evaluated on the character lists. -/
def startswith (s p : String) : Bool :=
  p.data.isPrefixOf s.data

/-- The `has_soft_delete` test of the checker: some field of the model is a
ForeignKey whose remote model is a subclass of SoftDeletionModel. -/
def has_soft_delete (m : DjModel) : Bool :=
  m.fields.any (fun f =>
    match f with
    | .foreignKey remoteSoftDeletable => remoteSoftDeletable
    | .otherField => false)

/-- The message of the ImproperlyConfigured exception the checker raises,
which names the offending model. -/
def improperlyConfiguredMsg (modelName : String) : String :=
  modelName ++ " has a foreign key field to a model with soft deletion" ++
    " but it still uses the default manager. Please override the default manager" ++
    " with custom manager that filters out objects based on the foreign key field."

/-- The per-model condition under which the checker raises: the model
passes the skip test (it is a Model subclass and not in the ignore list),
has a foreign key field to a soft-deletable model, and its default manager
is exactly the plain `models.Manager`. -/
def isOffending (ignore_models : List DjModel) (m : DjModel) : Bool :=
  (m.isModelSubclass && !(decide (m ∈ ignore_models))) &&
    (has_soft_delete m && decide (m.objectsManager = .plainManager))

/-- The inner loop of check_model_object_manager over the models of one app
config: models that are not Model subclasses or are in the ignore list are
skipped; a model with a foreign key to a soft-deletable model whose default
manager is exactly `models.Manager` raises ImproperlyConfigured. -/
def checkModels (ignore_models : List DjModel) :
    List DjModel → Except String Unit
  | [] => .ok ()
  | m :: rest =>
    if !m.isModelSubclass || decide (m ∈ ignore_models) then
      checkModels ignore_models rest
    else if has_soft_delete m && decide (m.objectsManager = .plainManager) then
      .error (improperlyConfiguredMsg m.name)
    else
      checkModels ignore_models rest

/-- The outer loop of check_model_object_manager over the app configs: app
configs whose name does not start with "app." are skipped entirely. -/
def checkAppConfigs (ignore_models : List DjModel) :
    List AppConfig → Except String Unit
  | [] => .ok ()
  | a :: rest =>
    if startswith a.name "app." then
      match checkModels ignore_models a.models with
      | .ok () => checkAppConfigs ignore_models rest
      | .error e => .error e
    else
      checkAppConfigs ignore_models rest

/-- check_model_object_manager: iterates the app configs of the registry
(scoped to names starting with "app.") and raises ImproperlyConfigured
(modelled as `.error msg`) for the first model found that has a foreign key
to a soft-deletable model but still uses the plain default manager. -/
def check_model_object_manager (django_apps : List AppConfig)
    (ignore_models : List DjModel) : Except String Unit :=
  checkAppConfigs ignore_models django_apps

/-- A row of SampleModelWithForeignKey: its own payload columns together
with the SampleModel row that its `sample` foreign key references (the
lookup path "sample__deleted_at" reads `sample.deleted_at`). -/
structure FKRow (α β : Type) where
  payload : α
  sample : SDRow β
deriving DecidableEq, Repr

/-- DeletedFilterManager.get_queryset: when `self.query_param` is truthy (a
non-None, non-empty string) it filters on `query_param = None` using the
given Django lookup resolution `ev`; otherwise `filter()` is called with no
kwargs, which returns every row. -/
def deletedFilterGetQueryset {ρ : Type} (queryParam : Option String)
    (ev : String → ρ → Option Timestamp) (table : List ρ) : List ρ :=
  match queryParam with
  | none => table
  | some s => if s = "" then table else table.filter (fun r => (ev s r).isNone)

/-- Django lookup resolution on SampleModelWithForeignKey rows for the one
lookup path the source uses: "sample__deleted_at" traverses the `sample`
foreign key and reads `deleted_at` on the referenced row. -/
def sampleLookup {α β : Type} : String → FKRow α β → Option Timestamp :=
  fun path r =>
    if path = "sample__deleted_at" then r.sample.deleted_at else none

/-- The default access path of SampleModelWithForeignKey:
`objects = DeletedFilterManager("sample__deleted_at")`. -/
def sampleFKObjects {α β : Type} (table : List (FKRow α β)) :
    List (FKRow α β) :=
  deletedFilterGetQueryset (some "sample__deleted_at") sampleLookup table

/-- The secondary access path of SampleModelWithForeignKey:
`all_objects = models.Manager()`, returning every row. -/
def sampleFKAllObjects {α β : Type} (table : List (FKRow α β)) :
    List (FKRow α β) :=
  table

end Django

/-! Concrete sample data used to exercise the definitions. -/

/-- A sample predicate over rows with Nat payload: payload is even. -/
def evenRow : SDRow Nat → Bool := fun r => r.payload % 2 == 0

/-- The same sample predicate expressed on payloads only. -/
def evenPayload : Nat → Bool := fun x => x % 2 == 0

/-- A sample table: one live row, two soft-deleted rows. -/
def wTable : List (SDRow Nat) := [⟨0, none⟩, ⟨1, some 3⟩, ⟨2, some 4⟩]

/-- A sample SQLAlchemy query over wTable, built by the overridden session. -/
def wQuery : SA.Query Nat := SA.sessionQuery true wTable

/-- A sample model with a foreign key to a soft-deletable model that still
uses the plain default manager. -/
def badModel : Django.DjModel :=
  ⟨"Bad", true, [.foreignKey true], .plainManager⟩

/-- A registry holding badModel inside an app config scoped by the checker. -/
def scopedApps : List Django.AppConfig :=
  [⟨"app.main", [badModel]⟩]

/-- A sample dependent-entity table: one row referencing a live sample row
and one row referencing a soft-deleted sample row. -/
def wFKTable : List (Django.FKRow Nat Nat) :=
  [⟨10, ⟨0, none⟩⟩, ⟨11, ⟨1, some 3⟩⟩]

/-! Helper lemmas. -/

/-- Positional effect of the Django soft_delete on a single row. -/
theorem django_soft_delete_get {α : Type} (p : SDRow α → Bool) (t : Timestamp)
    (table : List (SDRow α)) (i : Nat) (r : SDRow α)
    (hr : table.get? i = some r) :
    (Django.soft_delete p t table).1.get? i =
      some (if p r then ⟨r.payload, some t⟩ else r) := by
  have hr2 : table[i]? = some r := by simpa [List.get?_eq_getElem?] using hr
  simp [Django.soft_delete, List.get?_eq_getElem?, List.getElem?_map, hr2]

/-- Positional effect of the SQLAlchemy soft_delete on a single row. -/
theorem sa_soft_delete_get {α : Type} (q : SA.Query α) (p : SDRow α → Bool)
    (t : Timestamp) (i : Nat) (r : SDRow α)
    (hr : q.table.get? i = some r) :
    (q.soft_delete p t).1.get? i =
      some (if (q.filter p).cond r then ⟨r.payload, some t⟩ else r) := by
  have hr2 : q.table[i]? = some r := by simpa [List.get?_eq_getElem?] using hr
  simp [SA.Query.soft_delete, List.get?_eq_getElem?, List.getElem?_map, hr2]

/-! Theorems about the claims of the specification. -/

/-- C1: for every soft-deletable model, the default data-access path
(Django SoftDeletionManager.get_queryset, SQLAlchemy SoftDeletionSession
query) contains a row exactly when it is in the table and its deletion
timestamp is null — so every row with a non-null timestamp is excluded —
while the unfiltered paths (the `all_objects` plain manager, a plain
session query) contain every row regardless of deletion state. -/
theorem C1_default_path_excludes_deleted {α : Type}
    (table : List (SDRow α)) (r : SDRow α) :
    (r ∈ Django.get_queryset table ↔ r ∈ table ∧ r.deleted_at = none) ∧
    (r ∈ Django.all_objects table ↔ r ∈ table) ∧
    (r ∈ (SA.sessionQuery true table).rows ↔ r ∈ table ∧ r.deleted_at = none) ∧
    (r ∈ (SA.plainQuery table).rows ↔ r ∈ table) := by
  refine ⟨?_, Iff.rfl, ?_, ?_⟩
  · simp [Django.get_queryset, List.mem_filter, Option.isNone_iff_eq_none]
  · simp [SA.sessionQuery, SA.Query.rows, List.mem_filter,
      Option.isNone_iff_eq_none]
  · simp [SA.plainQuery, SA.Query.rows, List.mem_filter]

/-- Witness for C1 at a concrete table and rows. -/
theorem C1_default_path_excludes_deleted_witness :
    ¬ ((⟨1, some 3⟩ : SDRow Nat) ∈ Django.get_queryset wTable) ∧
    (⟨1, some 3⟩ : SDRow Nat) ∈ Django.all_objects wTable :=
  ⟨fun h => absurd
      ((C1_default_path_excludes_deleted wTable ⟨1, some 3⟩).1.mp h).2
      (by decide),
   (C1_default_path_excludes_deleted wTable ⟨1, some 3⟩).2.1.mpr (by decide)⟩

/-- C2: soft_delete is a single bulk update: every row matched by the
predicate has its deletion timestamp set to the one database-clock value of
the statement, no row is added or removed, and the returned value is the
count of the matched rows; this holds for the Django manager operation and
for the SQLAlchemy query operation (where the rows matched are those
selected by the query condition conjoined with the predicate). -/
theorem C2_soft_delete_bulk_update {α : Type} (p : SDRow α → Bool)
    (dbNow : Timestamp) (table : List (SDRow α)) (q : SA.Query α) :
    (∀ i r, table.get? i = some r → p r = true →
      (Django.soft_delete p dbNow table).1.get? i = some ⟨r.payload, some dbNow⟩) ∧
    (Django.soft_delete p dbNow table).1.length = table.length ∧
    (Django.soft_delete p dbNow table).2 = table.countP p ∧
    (∀ i r, q.table.get? i = some r → (q.filter p).cond r = true →
      (q.soft_delete p dbNow).1.get? i = some ⟨r.payload, some dbNow⟩) ∧
    (q.soft_delete p dbNow).1.length = q.table.length ∧
    (q.soft_delete p dbNow).2 = q.table.countP (q.filter p).cond := by
  refine ⟨?_, ?_, ?_, ?_, ?_, ?_⟩
  · intro i r hr hp
    have hr2 : table[i]? = some r := by simpa [List.get?_eq_getElem?] using hr
    simp only [Django.soft_delete, List.get?_eq_getElem?, List.getElem?_map]
    rw [hr2]
    simp [hp]
  · simp [Django.soft_delete]
  · simp [Django.soft_delete, List.countP_eq_length_filter]
  · intro i r hr hp
    have hr2 : q.table[i]? = some r := by simpa [List.get?_eq_getElem?] using hr
    simp only [SA.Query.soft_delete, List.get?_eq_getElem?, List.getElem?_map]
    rw [hr2]
    simp [hp]
  · simp [SA.Query.soft_delete]
  · simp [SA.Query.soft_delete, List.countP_eq_length_filter]

/-- Witness for C2 at a concrete table, predicate and clock value. -/
theorem C2_soft_delete_bulk_update_witness :
    (Django.soft_delete evenRow 7 wTable).1.get? 0 = some ⟨0, some 7⟩ ∧
    (Django.soft_delete evenRow 7 wTable).2 = wTable.countP evenRow :=
  ⟨(C2_soft_delete_bulk_update evenRow 7 wTable wQuery).1 0 ⟨0, none⟩ rfl rfl,
   (C2_soft_delete_bulk_update evenRow 7 wTable wQuery).2.2.1⟩

/-- C4: for the dependent entity SampleModelWithForeignKey, whose default
manager is the lookup-path-parameterized DeletedFilterManager with
"sample__deleted_at", the default access path contains a row exactly when
it is in the table and its referenced SampleModel row has a null deletion
timestamp; every row whose referenced soft-deletable row has a non-null
timestamp is excluded. -/
theorem C4_dependent_default_excludes {α β : Type}
    (table : List (Django.FKRow α β)) (r : Django.FKRow α β) :
    (r ∈ Django.sampleFKObjects table ↔ r ∈ table ∧ r.sample.deleted_at = none) ∧
    (r ∈ Django.sampleFKAllObjects table ↔ r ∈ table) := by
  constructor
  · simp [Django.sampleFKObjects, Django.deletedFilterGetQueryset,
      Django.sampleLookup, List.mem_filter, Option.isNone_iff_eq_none]
  · exact Iff.rfl

/-- Witness for C4 at a concrete dependent-entity table. -/
theorem C4_dependent_default_excludes_witness :
    ¬ ((⟨11, ⟨1, some 3⟩⟩ : Django.FKRow Nat Nat) ∈
        Django.sampleFKObjects wFKTable) ∧
    (⟨10, ⟨0, none⟩⟩ : Django.FKRow Nat Nat) ∈
      Django.sampleFKObjects wFKTable :=
  ⟨fun h => absurd
      ((C4_dependent_default_excludes wFKTable ⟨11, ⟨1, some 3⟩⟩).1.mp h).2
      (by decide),
   (C4_dependent_default_excludes wFKTable ⟨10, ⟨0, none⟩⟩).1.mpr
     ⟨by decide, rfl⟩⟩

/-- C5: soft_delete leaves every row not matched by the predicate entirely
unchanged (deletion timestamp and payload), both for the Django manager
operation and for the SQLAlchemy query operation. -/
theorem C5_soft_delete_frame {α : Type} (p : SDRow α → Bool)
    (dbNow : Timestamp) (table : List (SDRow α)) (q : SA.Query α)
    (i j : Nat) (r s : SDRow α)
    (hr : table.get? i = some r) (hp : p r = false)
    (hs : q.table.get? j = some s) (hq : p s = false) :
    (Django.soft_delete p dbNow table).1.get? i = some r ∧
    (q.soft_delete p dbNow).1.get? j = some s := by
  constructor
  · rw [django_soft_delete_get p dbNow table i r hr, if_neg (by simp [hp])]
  · rw [sa_soft_delete_get q p dbNow j s hs, if_neg (by simp [SA.Query.filter, hq])]

/-- Witness for C5 at a concrete table, predicate and clock value. -/
theorem C5_soft_delete_frame_witness :
    (Django.soft_delete evenRow 7 wTable).1.get? 1 = some ⟨1, some 3⟩ ∧
    (wQuery.soft_delete evenRow 7).1.get? 1 = some ⟨1, some 3⟩ :=
  C5_soft_delete_frame evenRow 7 wTable wQuery 1 1 ⟨1, some 3⟩ ⟨1, some 3⟩
    rfl rfl rfl rfl

/-- C6: applying soft_delete twice with the same predicate is idempotent in
effect: a row matched by the first application still has a non-null
deletion timestamp after the second application (the timestamp value may
merely be overwritten), keeps its payload, and is still excluded from the
default access path; likewise on the SQLAlchemy side for a row matched by
the first session-query soft_delete. -/
theorem C6_soft_delete_idempotent {α : Type} (p : SDRow α → Bool)
    (t1 t2 : Timestamp) (table : List (SDRow α)) (i : Nat) (r : SDRow α)
    (hr : table.get? i = some r) (hp : p r = true) :
    (∃ u, (Django.soft_delete p t2 (Django.soft_delete p t1 table).1).1.get? i
        = some u ∧
      u.deleted_at ≠ none ∧ u.payload = r.payload ∧
      u ∉ Django.get_queryset
        (Django.soft_delete p t2 (Django.soft_delete p t1 table).1).1) ∧
    (r.deleted_at = none →
      ∃ v, (((SA.sessionQuery true
          ((SA.sessionQuery true table).soft_delete p t1).1)).soft_delete p t2).1.get? i
          = some v ∧ v.deleted_at ≠ none) := by
  constructor
  · have h1 : (Django.soft_delete p t1 table).1.get? i =
        some (⟨r.payload, some t1⟩ : SDRow α) := by
      rw [django_soft_delete_get p t1 table i r hr, if_pos hp]
    have h2 := django_soft_delete_get p t2 (Django.soft_delete p t1 table).1 i
      ⟨r.payload, some t1⟩ h1
    by_cases hp2 : p ⟨r.payload, some t1⟩
    · refine ⟨⟨r.payload, some t2⟩, by rwa [if_pos hp2] at h2, by simp, rfl, ?_⟩
      intro hmem
      simp [Django.get_queryset, List.mem_filter] at hmem
    · refine ⟨⟨r.payload, some t1⟩, by rwa [if_neg hp2] at h2, by simp, rfl, ?_⟩
      intro hmem
      simp [Django.get_queryset, List.mem_filter] at hmem
  · intro hd
    have h1 : ((SA.sessionQuery true table).soft_delete p t1).1.get? i =
        some (⟨r.payload, some t1⟩ : SDRow α) := by
      rw [sa_soft_delete_get (SA.sessionQuery true table) p t1 i r hr,
        if_pos (by simp [SA.sessionQuery, SA.Query.filter, hd, hp])]
    have h2 := sa_soft_delete_get
      (SA.sessionQuery true ((SA.sessionQuery true table).soft_delete p t1).1)
      p t2 i ⟨r.payload, some t1⟩ h1
    rw [if_neg (by simp [SA.sessionQuery, SA.Query.filter])] at h2
    exact ⟨⟨r.payload, some t1⟩, h2, by simp⟩

/-- Witness for C6 at a concrete table, predicate and clock values. -/
theorem C6_soft_delete_idempotent_witness :
    (∃ u, (Django.soft_delete evenRow 9
        (Django.soft_delete evenRow 7 wTable).1).1.get? 0 = some u ∧
      u.deleted_at ≠ none ∧ u.payload = 0 ∧
      u ∉ Django.get_queryset
        (Django.soft_delete evenRow 9
          (Django.soft_delete evenRow 7 wTable).1).1) ∧
    (∃ v, (((SA.sessionQuery true
        ((SA.sessionQuery true wTable).soft_delete evenRow 7).1)).soft_delete
          evenRow 9).1.get? 0 = some v ∧ v.deleted_at ≠ none) :=
  ⟨(C6_soft_delete_idempotent evenRow 7 9 wTable 0 ⟨0, none⟩ rfl rfl).1,
   (C6_soft_delete_idempotent evenRow 7 9 wTable 0 ⟨0, none⟩ rfl rfl).2 rfl⟩

/-- The inner checker loop passes exactly when no model of the list is
offending. -/
theorem checkModels_ok_iff (ig ms : List Django.DjModel) :
    Django.checkModels ig ms = .ok () ↔
      ∀ m ∈ ms, Django.isOffending ig m = false := by
  induction ms with
  | nil => simp [Django.checkModels]
  | cons m rest ih =>
    cases h1 : (!m.isModelSubclass || decide (m ∈ ig)) with
    | true =>
      have hm : Django.isOffending ig m = false := by
        have h1b : m.isModelSubclass = false ∨ m ∈ ig := by simpa using h1
        rcases h1b with h | h
        · simp [Django.isOffending, h]
        · simp [Django.isOffending, h]
      simp [Django.checkModels, h1, ih, List.forall_mem_cons, hm]
    | false =>
      have hsub : m.isModelSubclass = true := by
        have := Bool.or_eq_false_iff.mp h1
        simpa using this.1
      have hmem : ¬ m ∈ ig := by
        have := Bool.or_eq_false_iff.mp h1
        simpa using this.2
      cases h2 : (Django.has_soft_delete m &&
          decide (m.objectsManager = Django.ManagerClass.plainManager)) with
      | true =>
        have hm : Django.isOffending ig m = true := by
          simp [Django.isOffending, hsub, hmem, h2]
        simp [Django.checkModels, h1, h2, List.forall_mem_cons, hm]
      | false =>
        have hm : Django.isOffending ig m = false := by
          simp [Django.isOffending, h2]
        simp [Django.checkModels, h1, h2, ih, List.forall_mem_cons, hm]

/-- When the inner checker loop raises, some offending model of the list
is named by the message. -/
theorem checkModels_error_mem (ig ms : List Django.DjModel) (msg : String)
    (h : Django.checkModels ig ms = .error msg) :
    ∃ m ∈ ms, Django.isOffending ig m = true ∧
      msg = Django.improperlyConfiguredMsg m.name := by
  induction ms with
  | nil => simp [Django.checkModels] at h
  | cons m rest ih =>
    cases h1 : (!m.isModelSubclass || decide (m ∈ ig)) with
    | true =>
      rw [Django.checkModels, if_pos (by simp [h1])] at h
      obtain ⟨m2, hm2, hoff, hmsg⟩ := ih h
      exact ⟨m2, List.mem_cons_of_mem m hm2, hoff, hmsg⟩
    | false =>
      have hsub : m.isModelSubclass = true := by
        have := Bool.or_eq_false_iff.mp h1
        simpa using this.1
      have hmem : ¬ m ∈ ig := by
        have := Bool.or_eq_false_iff.mp h1
        simpa using this.2
      rw [Django.checkModels, if_neg (by simp [h1])] at h
      cases h2 : (Django.has_soft_delete m &&
          decide (m.objectsManager = Django.ManagerClass.plainManager)) with
      | true =>
        rw [if_pos (by simp [h2])] at h
        refine ⟨m, List.mem_cons_self m rest, ?_, ?_⟩
        · simp [Django.isOffending, hsub, hmem, h2]
        · exact (Except.error.injEq _ _).mp h.symm
      | false =>
        rw [if_neg (by simp [h2])] at h
        obtain ⟨m2, hm2, hoff, hmsg⟩ := ih h
        exact ⟨m2, List.mem_cons_of_mem m hm2, hoff, hmsg⟩

/-- The outer checker loop passes exactly when no scoped app config holds
an offending model. -/
theorem checkAppConfigs_ok_iff (ig : List Django.DjModel)
    (apps : List Django.AppConfig) :
    Django.checkAppConfigs ig apps = .ok () ↔
      ∀ a ∈ apps, Django.startswith a.name "app." = true →
        ∀ m ∈ a.models, Django.isOffending ig m = false := by
  induction apps with
  | nil => simp [Django.checkAppConfigs]
  | cons a rest ih =>
    cases h1 : Django.startswith a.name "app." with
    | false =>
      simp [Django.checkAppConfigs, h1, ih, List.forall_mem_cons]
    | true =>
      cases hc : Django.checkModels ig a.models with
      | ok u =>
        cases u
        have ha := (checkModels_ok_iff ig a.models).mp hc
        have lhs : Django.checkAppConfigs ig (a :: rest) =
            Django.checkAppConfigs ig rest := by
          simp [Django.checkAppConfigs, h1, hc]
        rw [lhs, ih, List.forall_mem_cons]
        exact (and_iff_right (fun _ => ha)).symm
      | error e =>
        obtain ⟨m, hm, hoff, -⟩ := checkModels_error_mem ig a.models e hc
        refine iff_of_false ?_ ?_
        · intro hok
          simp [Django.checkAppConfigs, h1, hc] at hok
        · intro h
          have := h a (List.mem_cons_self a rest) h1 m hm
          simp [hoff] at this

/-- When the outer checker loop raises, some scoped app config holds an
offending model named by the message. -/
theorem checkAppConfigs_error_mem (ig : List Django.DjModel)
    (apps : List Django.AppConfig) (msg : String)
    (h : Django.checkAppConfigs ig apps = .error msg) :
    ∃ a ∈ apps, Django.startswith a.name "app." = true ∧
      ∃ m ∈ a.models, Django.isOffending ig m = true ∧
        msg = Django.improperlyConfiguredMsg m.name := by
  induction apps with
  | nil => simp [Django.checkAppConfigs] at h
  | cons a rest ih =>
    cases h1 : Django.startswith a.name "app." with
    | false =>
      rw [Django.checkAppConfigs, if_neg (by simp [h1])] at h
      obtain ⟨a2, ha2, hs, hrest⟩ := ih h
      exact ⟨a2, List.mem_cons_of_mem a ha2, hs, hrest⟩
    | true =>
      rw [Django.checkAppConfigs, if_pos (by simp [h1])] at h
      cases hc : Django.checkModels ig a.models with
      | ok u =>
        cases u
        rw [hc] at h
        obtain ⟨a2, ha2, hs, hrest⟩ := ih h
        exact ⟨a2, List.mem_cons_of_mem a ha2, hs, hrest⟩
      | error e =>
        rw [hc] at h
        obtain ⟨m, hm, hoff, hmsg⟩ :=
          checkModels_error_mem ig a.models e hc
        refine ⟨a, List.mem_cons_self a rest, h1, m, hm, hoff, ?_⟩
        have he : e = msg := (Except.error.injEq _ _).mp h
        rw [← he]
        exact hmsg

/-- The offending condition, unfolded to its component propositions. -/
theorem isOffending_iff (ig : List Django.DjModel) (m : Django.DjModel) :
    Django.isOffending ig m = true ↔
      m.isModelSubclass = true ∧ ¬ m ∈ ig ∧
        Django.has_soft_delete m = true ∧
        m.objectsManager = Django.ManagerClass.plainManager := by
  simp [Django.isOffending, and_assoc]

/-- C3 counterexample: a model with a foreign key to a soft-deletable model
and the plain unfiltered default manager, registered in an app config whose
name does not start with "app.", does not make the checker raise, so the
checker does not raise exactly for every such model. -/
theorem C3_counterexample :
    Django.has_soft_delete badModel = true ∧
    badModel.objectsManager = Django.ManagerClass.plainManager ∧
    Django.check_model_object_manager [⟨"myapp", [badModel]⟩] [] = .ok () := by
  refine ⟨rfl, rfl, ?_⟩
  have h1 : Django.startswith "myapp" "app." = false := rfl
  simp [Django.check_model_object_manager, Django.checkAppConfigs, h1]

/-- C3 (amended to models inside app configs whose name starts with
"app.", the only ones the checker iterates): the checker raises the
configuration error exactly when some scoped app config holds a
non-ignored model with a foreign key to a soft-deletable model whose
default manager is exactly the plain default manager — so any override
manager never raises and ignored models never raise — and the raised
message names an offending model with the plain default manager. -/
theorem C3_checker_raises_iff (apps : List Django.AppConfig)
    (ig : List Django.DjModel) :
    ((∃ msg, Django.check_model_object_manager apps ig = .error msg) ↔
      ∃ a ∈ apps, Django.startswith a.name "app." = true ∧
        ∃ m ∈ a.models, m.isModelSubclass = true ∧ ¬ m ∈ ig ∧
          Django.has_soft_delete m = true ∧
          m.objectsManager = Django.ManagerClass.plainManager) ∧
    (∀ msg, Django.check_model_object_manager apps ig = .error msg →
      ∃ a ∈ apps, Django.startswith a.name "app." = true ∧
        ∃ m ∈ a.models, ¬ m ∈ ig ∧
          m.objectsManager = Django.ManagerClass.plainManager ∧
          msg = Django.improperlyConfiguredMsg m.name) := by
  constructor
  · have hsplit : ∀ e : Except String Unit,
        (∃ msg, e = .error msg) ↔ ¬ (e = .ok ()) := by
      intro e
      cases e with
      | ok u => cases u; simp
      | error s => simp
    rw [Django.check_model_object_manager, hsplit, checkAppConfigs_ok_iff]
    push_neg
    constructor
    · rintro ⟨a, ha, hs, m, hm, hoff⟩
      exact ⟨a, ha, hs, m, hm, (isOffending_iff ig m).mp (by simpa using hoff)⟩
    · rintro ⟨a, ha, hs, m, hm, hprops⟩
      refine ⟨a, ha, hs, m, hm, ?_⟩
      simp [(isOffending_iff ig m).mpr hprops]
  · intro msg h
    obtain ⟨a, ha, hs, m, hm, hoff, hmsg⟩ :=
      checkAppConfigs_error_mem ig apps msg h
    obtain ⟨-, hig, -, hplain⟩ := (isOffending_iff ig m).mp hoff
    exact ⟨a, ha, hs, m, hm, hig, hplain, hmsg⟩

/-- Witness for C3 at a concrete registry holding an offending model in a
scoped app config. -/
theorem C3_checker_raises_iff_witness :
    ∃ a ∈ scopedApps, Django.startswith a.name "app." = true ∧
      ∃ m ∈ a.models, ¬ m ∈ ([] : List Django.DjModel) ∧
        m.objectsManager = Django.ManagerClass.plainManager ∧
        Django.improperlyConfiguredMsg "Bad" =
          Django.improperlyConfiguredMsg m.name :=
  (C3_checker_raises_iff scopedApps []).2
    (Django.improperlyConfiguredMsg "Bad") rfl

/-- C7: the consistency checker only inspects app configs whose name
starts with the fixed string "app.": its result on any registry equals its
result on the registry restricted to such app configs, and a single app
config without the prefix never raises, whatever models it holds. -/
theorem C7_checker_app_scope (apps : List Django.AppConfig)
    (ig : List Django.DjModel) :
    Django.check_model_object_manager apps ig =
      Django.check_model_object_manager
        (apps.filter (fun a => Django.startswith a.name "app.")) ig ∧
    (∀ a : Django.AppConfig, Django.startswith a.name "app." = false →
      Django.check_model_object_manager [a] ig = .ok ()) := by
  constructor
  · rw [Django.check_model_object_manager, Django.check_model_object_manager]
    induction apps with
    | nil => rfl
    | cons a rest ih =>
      cases h1 : Django.startswith a.name "app." with
      | false => simp [Django.checkAppConfigs, h1, List.filter_cons, ih]
      | true =>
        cases hc : Django.checkModels ig a.models with
        | ok u => cases u; simp [Django.checkAppConfigs, h1, hc, List.filter_cons, ih]
        | error e => simp [Django.checkAppConfigs, h1, hc, List.filter_cons]
  · intro a h
    simp [Django.check_model_object_manager, Django.checkAppConfigs, h]

/-- Witness for C7: an app config outside the "app." namespace holding a
model with a foreign key to a soft-deletable model and the plain default
manager never raises. -/
theorem C7_checker_app_scope_witness :
    Django.check_model_object_manager [⟨"vendor.lib", [badModel]⟩] [] = .ok () :=
  (C7_checker_app_scope [⟨"vendor.lib", [badModel]⟩] []).2
    ⟨"vendor.lib", [badModel]⟩ rfl

/-- C9: a DeletedFilterManager constructed with query_param=None applies no
filter at all — its get_queryset returns the whole table, like the plain
unfiltered manager — yet a model with a foreign key to a soft-deletable
model that uses it passes the consistency checker, because the checker
compares the exact manager class with the plain models.Manager and
DeletedFilterManager is a different class. -/
theorem C9_query_param_none_unfiltered {ρ : Type}
    (ev : String → ρ → Option Timestamp) (table : List ρ) :
    Django.deletedFilterGetQueryset none ev table = table ∧
    (∀ name : String, ∀ fields : List Django.DjField,
      Django.check_model_object_manager
        [⟨"app.sample", [⟨name, true, fields,
          Django.ManagerClass.deletedFilterManager none⟩]⟩] [] = .ok ()) ∧
    Django.ManagerClass.deletedFilterManager none ≠
      Django.ManagerClass.plainManager := by
  refine ⟨rfl, ?_, by simp⟩
  intro name fields
  have h1 : Django.startswith "app.sample" "app." = true := rfl
  simp [Django.check_model_object_manager, Django.checkAppConfigs, h1,
    Django.checkModels]

/-- Witness for C9 at a concrete lookup evaluator and table. -/
theorem C9_query_param_none_unfiltered_witness :
    Django.deletedFilterGetQueryset none Django.sampleLookup wFKTable
      = wFKTable ∧
    Django.check_model_object_manager
      [⟨"app.sample", [⟨"Dep", true, [.foreignKey true],
        Django.ManagerClass.deletedFilterManager none⟩]⟩] [] = .ok () :=
  ⟨(C9_query_param_none_unfiltered Django.sampleLookup wFKTable).1,
   (C9_query_param_none_unfiltered Django.sampleLookup wFKTable).2.1
     "Dep" [.foreignKey true]⟩

/-- C8 counterexample: a soft-deleted row is matched again by a second
Django soft_delete call (the operation filters the unfiltered base
queryset), and its timestamp is set a second time, to a different value,
so the timestamp is not set exactly once. -/
theorem C8_counterexample :
    (Django.soft_delete (fun _ => true) 1 [newRow (0 : Nat)]).1
      = [⟨0, some 1⟩] ∧
    (Django.soft_delete (fun _ => true) 5
      (Django.soft_delete (fun _ => true) 1 [newRow (0 : Nat)]).1).1
      = [⟨0, some 5⟩] ∧
    (some 1 : Option Timestamp) ≠ some 5 := by
  refine ⟨rfl, rfl, by decide⟩

/-- C8 (amended: the timestamp is null at creation and is set only by
soft-delete calls, which may overwrite an existing non-null value but
never reset it to null; no undelete exists and rows are never physically
removed): a freshly created row has a null timestamp; in both variants a
row whose timestamp is non-null still has a non-null timestamp after any
soft_delete; and soft_delete never removes or adds rows. -/
theorem C8_lifecycle {α : Type} (x : α) (p : SDRow α → Bool)
    (dbNow : Timestamp) (table : List (SDRow α)) (q : SA.Query α)
    (i : Nat) (r : SDRow α) :
    (newRow x).deleted_at = none ∧
    (table.get? i = some r → r.deleted_at ≠ none →
      ∃ u, (Django.soft_delete p dbNow table).1.get? i = some u ∧
        u.deleted_at ≠ none) ∧
    (Django.soft_delete p dbNow table).1.length = table.length ∧
    (q.table.get? i = some r → r.deleted_at ≠ none →
      ∃ u, (q.soft_delete p dbNow).1.get? i = some u ∧
        u.deleted_at ≠ none) ∧
    (q.soft_delete p dbNow).1.length = q.table.length := by
  refine ⟨rfl, ?_, by simp [Django.soft_delete], ?_, by simp [SA.Query.soft_delete]⟩
  · intro hr hd
    rw [django_soft_delete_get p dbNow table i r hr]
    by_cases hp : p r
    · exact ⟨⟨r.payload, some dbNow⟩, by rw [if_pos hp], by simp⟩
    · exact ⟨r, by rw [if_neg hp], hd⟩
  · intro hr hd
    rw [sa_soft_delete_get q p dbNow i r hr]
    by_cases hc : (q.filter p).cond r
    · exact ⟨⟨r.payload, some dbNow⟩, by rw [if_pos hc], by simp⟩
    · exact ⟨r, by rw [if_neg hc], hd⟩

/-- Witness for C8 at a concrete table, query, predicate and clock. -/
theorem C8_lifecycle_witness :
    (∃ u, (Django.soft_delete evenRow 7 wTable).1.get? 1 = some u ∧
      u.deleted_at ≠ none) ∧
    (∃ u, (wQuery.soft_delete evenRow 7).1.get? 1 = some u ∧
      u.deleted_at ≠ none) :=
  ⟨(C8_lifecycle 0 evenRow 7 wTable wQuery 1 ⟨1, some 3⟩).2.1 rfl (by decide),
   (C8_lifecycle 0 evenRow 7 wTable wQuery 1 ⟨1, some 3⟩).2.2.2.1 rfl (by decide)⟩

/-- After a soft_delete through the session-query path, no row of the
resulting table satisfies the deleted_at-is-null condition conjoined with
the same predicate. -/
theorem sa_cond_after_update {α : Type} (p : SDRow α → Bool) (t : Timestamp)
    (r : SDRow α) :
    ((if r.deleted_at.isNone && p r then (⟨r.payload, some t⟩ : SDRow α)
        else r).deleted_at.isNone &&
      p (if r.deleted_at.isNone && p r then (⟨r.payload, some t⟩ : SDRow α)
        else r)) = false := by
  by_cases h : (r.deleted_at.isNone && p r) = true
  · simp [h]
  · have hf : (r.deleted_at.isNone && p r) = false := by simpa using h
    simp [hf]

/-- C10: the SQLAlchemy session query already carries the
deleted_at-is-null filter, so its soft_delete only updates rows that are
not already soft-deleted, and a second soft_delete with the same predicate
through a fresh session query affects zero rows — it returns 0 and leaves
the table unchanged — while the Django soft_delete, filtering over the
unfiltered base queryset, reports the same affected count on a second
application of any payload predicate. -/
theorem C10_sa_second_soft_delete_noop {α : Type} (p : SDRow α → Bool)
    (pd : α → Bool) (t1 t2 : Timestamp) (table : List (SDRow α)) :
    ((SA.sessionQuery true
        ((SA.sessionQuery true table).soft_delete p t1).1).soft_delete p t2).2
      = 0 ∧
    ((SA.sessionQuery true
        ((SA.sessionQuery true table).soft_delete p t1).1).soft_delete p t2).1
      = ((SA.sessionQuery true table).soft_delete p t1).1 ∧
    (∀ i r, table.get? i = some r → r.deleted_at ≠ none →
      ((SA.sessionQuery true table).soft_delete p t1).1.get? i = some r) ∧
    (Django.soft_delete (fun u => pd u.payload) t2
        (Django.soft_delete (fun u => pd u.payload) t1 table).1).2
      = (Django.soft_delete (fun u => pd u.payload) t1 table).2 := by
  refine ⟨?_, ?_, ?_, ?_⟩
  · simp only [SA.sessionQuery, SA.Query.soft_delete, SA.Query.filter,
      Bool.true_and, if_pos]
    rw [List.filter_map, List.length_map]
    have : ∀ a ∈ table, ¬ (((fun u : SDRow α => u.deleted_at.isNone && p u) ∘
        (fun u : SDRow α => if u.deleted_at.isNone && p u
          then ⟨u.payload, some t1⟩ else u)) a = true) := by
      intro a _
      simp only [Function.comp_apply]
      rw [sa_cond_after_update p t1 a]
      simp
    rw [List.filter_eq_nil_iff.mpr this]
    rfl
  · simp only [SA.sessionQuery, SA.Query.soft_delete, SA.Query.filter,
      Bool.true_and, if_pos]
    rw [List.map_map]
    apply List.map_congr_left
    intro a _
    simp only [Function.comp_apply]
    rw [if_neg (by rw [sa_cond_after_update p t1 a]; simp)]
  · intro i r hr hd
    have hno : r.deleted_at.isNone = false := by
      cases hx : r.deleted_at with
      | none => exact absurd hx hd
      | some v => rfl
    rw [sa_soft_delete_get (SA.sessionQuery true table) p t1 i r hr,
      if_neg (by simp [SA.sessionQuery, SA.Query.filter, hno])]
  · simp only [Django.soft_delete]
    rw [List.filter_map, List.length_map]
    congr 1
    apply List.filter_congr
    intro a _
    by_cases h : pd a.payload
    · simp [h]
    · simp [h]

/-- Witness for C10 at a concrete table, predicates and clock values. -/
theorem C10_sa_second_soft_delete_noop_witness :
    ((SA.sessionQuery true
        ((SA.sessionQuery true wTable).soft_delete evenRow 7).1).soft_delete
          evenRow 9).2 = 0 ∧
    ((SA.sessionQuery true wTable).soft_delete evenRow 7).1.get? 1
      = some ⟨1, some 3⟩ :=
  ⟨(C10_sa_second_soft_delete_noop evenRow evenPayload 7 9 wTable).1,
   (C10_sa_second_soft_delete_noop evenRow evenPayload 7 9 wTable).2.2.1
     1 ⟨1, some 3⟩ rfl (by decide)⟩

end SoftDel
